import Mathlib

/-!
Shallow embedding of the public instrumentation API of the node-newrelic agent
(source file api.js) together with proofs about its operations.

Modelling conventions:
- JavaScript values that can be undefined, null, booleans, numbers or strings
  are modelled by the inductive type JVal; truthiness follows JavaScript
  (undefined, null, false, 0 and the empty string are falsy).
- A JavaScript string argument that may be missing is modelled as Option String.
- Machine bytes are natural numbers; every write into a byte buffer is reduced
  modulo 256, mirroring assignment into a node Buffer cell.
- A thrown exception is modelled by the value none of an Option result; all
  total operations return their result directly.
- Buffer(string) encodes the string as UTF-8; utf8Bytes below implements that
  encoding directly.  key.charCodeAt on a basic-plane character equals the
  character code point, which is how keyCodes models it.
-/

/-- JavaScript value as far as this API needs it. -/
inductive JVal where
  | undef
  | jnull
  | jbool (b : Bool)
  | num (n : Nat)
  | str (s : String)
deriving DecidableEq

/-- JavaScript truthiness of a JVal. -/
def JVal.truthy : JVal → Bool
  | .undef => false
  | .jnull => false
  | .jbool b => b
  | .num n => n != 0
  | .str s => s != ""

/-- String coercion used by util.format for a %s directive. -/
def JVal.formatS : JVal → String
  | .undef => "undefined"
  | .jnull => "null"
  | .jbool b => if b then "true" else "false"
  | .num n => toString n
  | .str s => s

/-- Truthiness of an optional string: missing and empty are falsy. -/
def truthyS (s : Option String) : Bool :=
  match s with
  | none => false
  | some s => s != ""

/-- util.format %s rendering of an optional string argument. -/
def formatOptS (s : Option String) : String :=
  match s with
  | none => "undefined"
  | some s => s

/-- UTF-8 encoding of one character, as the list of its byte values. -/
def encodeCharUtf8 (c : Char) : List Nat :=
  let n := c.toNat
  if n < 0x80 then [n]
  else if n < 0x800 then [0xC0 + n / 0x40, 0x80 + n % 0x40]
  else if n < 0x10000 then
    [0xE0 + n / 0x1000, 0x80 + (n / 0x40) % 0x40, 0x80 + n % 0x40]
  else
    [0xF0 + n / 0x40000, 0x80 + (n / 0x1000) % 0x40, 0x80 + (n / 0x40) % 0x40,
     0x80 + n % 0x40]

/-- UTF-8 encoding of a character list. -/
def utf8BytesList : List Char → List Nat
  | [] => []
  | c :: cs => encodeCharUtf8 c ++ utf8BytesList cs

/-- UTF-8 byte encoding of a string, modelling new Buffer(string) in node. -/
def utf8Bytes (s : String) : List Nat := utf8BytesList s.data

/-- Character codes of a string, modelling s.charCodeAt at each index. -/
def keyCodes (s : String) : List Nat := s.data.map Char.toNat

/-- The base64 alphabet in index order. -/
def b64Alphabet : List Char :=
  "ABCDEFGHIJKLMNOPQRSTUVWXYZabcdefghijklmnopqrstuvwxyz0123456789+/".data

/-- Character of a six-bit group. -/
def b64char (n : Nat) : Char := b64Alphabet.getD n 'A'

/-- Base64 encoding of a byte list, as a character list. -/
def b64encodeChars : List Nat → List Char
  | [] => []
  | [a] => [b64char (a / 4), b64char (a % 4 * 16), '=', '=']
  | [a, b] => [b64char (a / 4), b64char (a % 4 * 16 + b / 16), b64char (b % 16 * 4), '=']
  | a :: b :: c :: rest =>
      b64char (a / 4) :: b64char (a % 4 * 16 + b / 16) ::
      b64char (b % 16 * 4 + c / 64) :: b64char (c % 64) :: b64encodeChars rest

/-- Base64 encoding of a byte list, modelling buffer.toString with base64. -/
def b64encode (bs : List Nat) : String := String.mk (b64encodeChars bs)

/-- Index of a character in a list, starting the count at a given index. -/
def b64valAux (c : Char) : List Char → Nat → Option Nat
  | [], _ => none
  | d :: ds, i => if d = c then some i else b64valAux c ds (i + 1)

/-- Six-bit value of a base64 character. -/
def b64val (c : Char) : Option Nat := b64valAux c b64Alphabet 0

/-- Base64 decoding of a character list. -/
def b64decodeChars : List Char → Option (List Nat)
  | [] => some []
  | c1 :: c2 :: c3 :: c4 :: rest =>
      match b64val c1, b64val c2 with
      | some v1, some v2 =>
        if c3 = '=' then
          if c4 = '=' ∧ rest = [] then some [v1 * 4 + v2 / 16] else none
        else
          match b64val c3 with
          | some v3 =>
            if c4 = '=' then
              if rest = [] then some [v1 * 4 + v2 / 16, v2 % 16 * 16 + v3 / 4]
              else none
            else
              match b64val c4 with
              | some v4 =>
                match b64decodeChars rest with
                | some tail =>
                    some ((v1 * 4 + v2 / 16) :: (v2 % 16 * 16 + v3 / 4) ::
                          (v3 % 4 * 64 + v4) :: tail)
                | none => none
              | none => none
          | none => none
      | _, _ => none
  | _ => none

/-- Base64 decoding of a string. -/
def b64decode (s : String) : Option (List Nat) := b64decodeChars s.data

/-- One pass of the cyclic XOR loop of _rumObfuscate, starting at byte index i.
The key is the list of character codes of the license key; reading past the end
of the key models the undefined index access that throws in JavaScript, hence
the Option result. -/
def xorBytesAux (key : List Nat) : Nat → List Nat → Option (List Nat)
  | _, [] => some []
  | i, b :: bs =>
      match key[i % 13]? with
      | none => none
      | some k => (xorBytesAux key (i + 1) bs).map (fun rest => (b ^^^ k) % 256 :: rest)

/-- The XOR loop of _rumObfuscate over a whole byte buffer. -/
def xorBytes (bs : List Nat) (key : List Nat) : Option (List Nat) :=
  xorBytesAux key 0 bs

/-- The obfuscation function _rumObfuscate of api.js: XOR the UTF-8 bytes of
the text with the character codes of the key, cycling every 13 bytes, then
base64 encode.  Returns none when the JavaScript original throws, that is when
some byte index i has i mod 13 outside the key. -/
def _rumObfuscate (text : String) (license_key : String) : Option String :=
  (xorBytes (utf8Bytes text) (keyCodes license_key)).map b64encode

/-- Total version of the XOR pass, used only to state specifications; out of
range key reads produce 0 instead of failing. -/
def xorSpecFrom (key : List Nat) : Nat → List Nat → List Nat
  | _, [] => []
  | i, b :: bs => (b ^^^ (key[i % 13]?.getD 0)) % 256 :: xorSpecFrom key (i + 1) bs

/-- Spec-side description of the obfuscation byte transform, following the
wording of the specification: byte i of the text is XORed with the character
code of the key at index i mod 13. -/
def xorWithCyclicKeySpec (bs ks : List Nat) : List Nat :=
  (List.range bs.length).map fun i => (bs[i]?.getD 0 ^^^ ks[i % 13]?.getD 0) % 256

/-- Log levels used by the api component. -/
inductive LogLevel where
  | warn
  | error
  | trace
deriving DecidableEq

/-- One emitted log record: a level and the formatted message. -/
structure LogEntry where
  level : LogLevel
  msg : String
deriving DecidableEq

/-- The browser_monitoring section of the configuration.  Every field is a
JVal because the source only assumes truthiness, never a concrete type. -/
structure BrowserMonitoringConfig where
  enable : JVal
  browser_key : JVal
  js_agent_file : JVal
  js_agent_loader : JVal
  beacon : JVal
  error_beacon : JVal
  debug : JVal
deriving DecidableEq

/-- The configuration snapshot conf read by getBrowserTimingHeader. -/
structure Config where
  browser_monitoring : Option BrowserMonitoringConfig
  license_key : Option String
  application_id : JVal
deriving DecidableEq

/-- The transaction object, with the fields read or written by api.js.  The
elapsed duration returned by timer.getDurationInMillis at call time is the
field timerDurationMs. -/
structure Transaction where
  partialName : Option String
  url : Option String
  verb : Option String
  forceIgnore : JVal
  queueTime : JVal
  timerDurationMs : Nat
deriving DecidableEq

/-- The collaborator state reachable from the API object: the current
transaction of the tracer, the configuration, the rule store of the user
normalizer (a pattern with its replacement, none meaning ignore), and the
error collector. -/
structure AgentState where
  transaction : Option Transaction
  config : Config
  rules : List (String × Option String)
  errorsCollected : List (Option Transaction × JVal)
deriving DecidableEq

/-- Modelled from the spec: the metric name category constants NAMES.CUSTOM
and NAMES.CONTROLLER come from lib/metrics/names, which is not part of the
given source.  The spec fixes the produced prefixes as Custom and Controller. -/
def NAMES_CUSTOM : String := "Custom"

/-- Modelled from the spec: see NAMES_CUSTOM. -/
def NAMES_CONTROLLER : String := "Controller"

/-- API.prototype.setTransactionName of api.js.  The result is the updated
agent state together with the log records emitted during the call. -/
def setTransactionName (st : AgentState) (name : Option String) :
    AgentState × List LogEntry :=
  match st.transaction with
  | none =>
      (st, [⟨LogLevel.warn,
        "No transaction found when setting name to \x27" ++ formatOptS name ++ "\x27."⟩])
  | some transaction =>
      if truthyS name = false then
        if truthyS transaction.url then
          (st, [⟨LogLevel.error,
            "Must include name in setTransactionName call for URL " ++
              formatOptS transaction.url ++ "."⟩])
        else
          (st, [⟨LogLevel.error, "Must include name in setTransactionName call."⟩])
      else
        ({ st with transaction := some { transaction with
            partialName := some (NAMES_CUSTOM ++ "/" ++ formatOptS name) } }, [])

/-- API.prototype.setControllerName of api.js. -/
def setControllerName (st : AgentState) (name : Option String)
    (action : Option String) : AgentState × List LogEntry :=
  match st.transaction with
  | none =>
      (st, [⟨LogLevel.warn,
        "No transaction found when setting controller to " ++ formatOptS name ++ "."⟩])
  | some transaction =>
      if truthyS name = false then
        if truthyS transaction.url then
          (st, [⟨LogLevel.error,
            "Must include name in setControllerName call for URL " ++
              formatOptS transaction.url ++ "."⟩])
        else
          (st, [⟨LogLevel.error, "Must include name in setControllerName call."⟩])
      else
        let action2 :=
          if truthyS action then formatOptS action
          else if truthyS transaction.verb then formatOptS transaction.verb
          else "GET"
        ({ st with transaction := some { transaction with
            partialName :=
              some (NAMES_CONTROLLER ++ "/" ++ formatOptS name ++ "/" ++ action2) } }, [])

/-- API.prototype.setIgnoreTransaction of api.js.  The argument is stored as
given, with no coercion. -/
def setIgnoreTransaction (st : AgentState) (ignored : JVal) :
    AgentState × List LogEntry :=
  match st.transaction with
  | none => (st, [⟨LogLevel.warn, "No transaction found to ignore."⟩])
  | some transaction =>
      ({ st with transaction := some { transaction with forceIgnore := ignored } }, [])

/-- API.prototype.noticeError of api.js. -/
def noticeError (st : AgentState) (error : JVal) : AgentState × List LogEntry :=
  ({ st with errorsCollected := st.errorsCollected ++ [(st.transaction, error)] }, [])

/-- API.prototype.addNamingRule of api.js.  Only the replacement name is
validated; the pattern is passed to the normalizer as given. -/
def addNamingRule (st : AgentState) (pattern : String) (name : Option String) :
    AgentState × List LogEntry :=
  if truthyS name = false then
    (st, [⟨LogLevel.error, "Simple naming rules require a replacement name."⟩])
  else
    ({ st with rules := st.rules ++ [(pattern, some ("/" ++ formatOptS name))] }, [])

/-- API.prototype.addIgnoringRule of api.js. -/
def addIgnoringRule (st : AgentState) (pattern : String) :
    AgentState × List LogEntry :=
  if pattern = "" then
    (st, [⟨LogLevel.error, "Must include a URL pattern to ignore."⟩])
  else
    ({ st with rules := st.rules ++ [(pattern, none)] }, [])

/-- Lowercase hex digit. -/
def hexDigit (n : Nat) : String :=
  "0123456789abcdef".data[n % 16]?.elim "0" String.singleton

/-- JSON string escaping of one character, as JSON.stringify performs it:
quote, backslash and the named control escapes, a hex escape for the other
control characters, everything else verbatim. -/
def jsonEscapeChar (c : Char) : String :=
  if c = '"' then "\\\""
  else if c = '\\' then "\\\\"
  else if c = Char.ofNat 8 then "\\b"
  else if c = Char.ofNat 9 then "\\t"
  else if c = Char.ofNat 10 then "\\n"
  else if c = Char.ofNat 12 then "\\f"
  else if c = Char.ofNat 13 then "\\r"
  else if c.toNat < 32 then "\\u00" ++ hexDigit (c.toNat / 16) ++ hexDigit (c.toNat % 16)
  else String.singleton c

/-- JSON quoting of a string. -/
def jsonQuote (s : String) : String :=
  "\"" ++ String.join (s.data.map jsonEscapeChar) ++ "\""

/-- JSON rendering of one JVal; none means the value is undefined, in which
case JSON.stringify drops the property. -/
def JVal.toJson : JVal → Option String
  | .undef => none
  | .jnull => some "null"
  | .jbool b => some (if b then "true" else "false")
  | .num n => some (toString n)
  | .str s => some (jsonQuote s)

/-- JSON.stringify of a flat object given as an ordered field list, with the
indent argument: 0 gives the compact form, a positive indent gives the pretty
form with that many spaces, exactly as JSON.stringify produces them. -/
def jsonStringifyObj (fields : List (String × JVal)) (indent : Nat) : String :=
  let present := fields.filterMap (fun p => (p.2.toJson).map (fun v => (p.1, v)))
  if present.isEmpty then "\x7b\x7d"
  else if indent = 0 then
    "\x7b" ++
      String.intercalate "," (present.map (fun p => jsonQuote p.1 ++ ":" ++ p.2)) ++
      "\x7d"
  else
    let pad := String.join (List.replicate indent " ")
    "\x7b\n" ++
      String.intercalate ",\n"
        (present.map (fun p => pad ++ jsonQuote p.1 ++ ": " ++ p.2)) ++
      "\n\x7d"

/-- The RUM_ISSUES message table of api.js. -/
def RUM_ISSUES : List String :=
  ["NREUM: no browser monitoring headers generated; disabled",
   "NREUM: transaction missing while generating browser monitoring headers",
   "NREUM: conf.browser_monitoring missing, something is probably wrong",
   "NREUM: browser_monitoring headers need a transaction name",
   "NREUM: browser_monitoring requires valid application_id",
   "NREUM: browser_monitoring requires valid browser_key"]

/-- The string returned by the inner helper _gracefail of
getBrowserTimingHeader. -/
def gracefailOut (num : Nat) : String :=
  "<!-- NREUM: (" ++ toString num ++ ") -->"

/-- The warning record logged by _gracefail. -/
def gracewarn (num : Nat) : LogEntry :=
  ⟨LogLevel.warn, RUM_ISSUES.getD num "undefined"⟩

/-- The RUM_STUB template of api.js with its two %s directives filled in by
util.format, first the JSON text and then the loader script. -/
def RUM_STUB (json loader : String) : String :=
  "<script type=\x27text/javascript\x27>window.NREUM||(NREUM=\x7b\x7d);" ++
    "NREUM.info = " ++ json ++ "; " ++ loader ++ "</script>"

/-- The rum_hash object literal of getBrowserTimingHeader, in source order. -/
def rumHashFields (browser_monitoring : BrowserMonitoringConfig) (appid : JVal)
    (tr : Transaction) (obfName : String) : List (String × JVal) :=
  [("agent", browser_monitoring.js_agent_file),
   ("beacon", browser_monitoring.beacon),
   ("errorBeacon", browser_monitoring.error_beacon),
   ("licenseKey", browser_monitoring.browser_key),
   ("applicationID", appid),
   ("applicationTime", JVal.num tr.timerDurationMs),
   ("transactionName", JVal.str obfName),
   ("queueTime", tr.queueTime),
   ("agentToken", JVal.jnull),
   ("ttGuid", JVal.str "")]

/-- API.prototype.getBrowserTimingHeader of api.js.  The first component is
the returned string, or none when the call throws; the second component lists
the log records emitted during the call. -/
def getBrowserTimingHeader (st : AgentState) : Option String × List LogEntry :=
  let conf := st.config
  match conf.browser_monitoring with
  | none => (some (gracefailOut 2), [gracewarn 2])
  | some browser_monitoring =>
    if browser_monitoring.enable.truthy = false then
      (some (gracefailOut 0), [gracewarn 0])
    else
      match st.transaction with
      | none => (some (gracefailOut 1), [gracewarn 1])
      | some tr =>
        if truthyS tr.partialName = false then
          (some (gracefailOut 3), [gracewarn 3])
        else
          let name := formatOptS tr.partialName
          if conf.application_id.truthy = false then
            (some (gracefailOut 4), [gracewarn 4])
          else if browser_monitoring.browser_key.truthy = false then
            (some (gracefailOut 5), [gracewarn 5])
          else
            let obf : Option String :=
              match conf.license_key with
              | some k => _rumObfuscate name k
              | none => if (utf8Bytes name).isEmpty then some (b64encode []) else none
            match obf with
            | none => (none, [])
            | some obfName =>
              let tabs := if browser_monitoring.debug.truthy then 2 else 0
              let json := jsonStringifyObj
                (rumHashFields browser_monitoring conf.application_id tr obfName) tabs
              (some (RUM_STUB json browser_monitoring.js_agent_loader.formatS),
               [⟨LogLevel.trace, "generating RUM header"⟩])

/-- Frame shape of a naming operation result: either exactly one log record
with an unchanged state, or no log record and a state differing only in the
partialName field of the transaction. -/
def nameOpFrame (st : AgentState) (r : AgentState × List LogEntry) : Prop :=
  (r.2.length = 1 ∧ r.1 = st) ∨
  (r.2 = [] ∧ ∃ tr p, st.transaction = some tr ∧
    r.1 = { st with transaction := some { tr with partialName := some p } })

/-- Browser monitoring section with everything enabled, for concrete runs. -/
def bmOn : BrowserMonitoringConfig :=
  { enable := .jbool true, browser_key := .str "abc123",
    js_agent_file := .str "agentfile", js_agent_loader := .str "LOADER",
    beacon := .str "beacon", error_beacon := .str "errbeacon", debug := .jbool false }

/-- A named transaction, as in the end to end example of the spec. -/
def trFoo : Transaction :=
  { partialName := some "Custom/Foo", url := some "/foo", verb := some "POST",
    forceIgnore := .undef, queueTime := .num 5, timerDurationMs := 10 }

/-- An unnamed transaction without a URL. -/
def trBare : Transaction :=
  { partialName := none, url := none, verb := none,
    forceIgnore := .jbool true, queueTime := .num 0, timerDurationMs := 0 }

/-- A fully working configuration with a 13 character license key. -/
def cfgOk : Config :=
  { browser_monitoring := some bmOn, license_key := some "0123456789ABC",
    application_id := .str "42" }

/-- Agent state on which every check of getBrowserTimingHeader passes. -/
def stOk : AgentState :=
  { transaction := some trFoo, config := cfgOk, rules := [], errorsCollected := [] }

/-- Same state with a two character license key and a three byte name: the
obfuscation loop reads key index 2 mod 13 = 2, past the end of the key. -/
def stShortKey : AgentState :=
  { stOk with
    transaction := some { trFoo with partialName := some "abc" },
    config := { cfgOk with license_key := some "ab" } }

/-- State without a browser_monitoring configuration section. -/
def stNoBm : AgentState :=
  { stOk with config := { cfgOk with browser_monitoring := none } }

/-- State with browser monitoring disabled. -/
def stDisabled : AgentState :=
  { stOk with
    config := { cfgOk with browser_monitoring := some { bmOn with enable := .jbool false } } }

/-- State with no active transaction. -/
def stNoTrans : AgentState :=
  { stOk with transaction := none }

/-- State whose transaction has no name. -/
def stNoName : AgentState :=
  { stOk with transaction := some trBare }

/-- State with no application id. -/
def stNoApp : AgentState :=
  { stOk with config := { cfgOk with application_id := .undef } }

/-- State with no browser key. -/
def stNoKey : AgentState :=
  { stOk with
    config := { cfgOk with browser_monitoring := some { bmOn with browser_key := .undef } } }

theorem char_toNat_lt (c : Char) : c.toNat < 1114112 := by
  rcases c.valid with h | h
  · exact Nat.lt_trans h (by norm_num)
  · exact h.2

theorem encodeCharUtf8_lt256 (c : Char) : ∀ b ∈ encodeCharUtf8 c, b < 256 := by
  have hc := char_toNat_lt c
  intro b hb
  simp only [encodeCharUtf8] at hb
  split at hb <;> [skip; split at hb] <;> [skip; skip; split at hb] <;>
    simp only [List.mem_cons, List.mem_singleton, List.not_mem_nil, or_false] at hb <;>
    omega

theorem utf8BytesList_lt256 : ∀ cs : List Char, ∀ b ∈ utf8BytesList cs, b < 256
  | [], _, hb => by simp [utf8BytesList] at hb
  | c :: cs, b, hb => by
      simp only [utf8BytesList, List.mem_append] at hb
      rcases hb with hb | hb
      · exact encodeCharUtf8_lt256 c b hb
      · exact utf8BytesList_lt256 cs b hb

theorem utf8Bytes_lt256 (s : String) : ∀ b ∈ utf8Bytes s, b < 256 :=
  utf8BytesList_lt256 s.data

theorem xor_mod256_invol (b k : Nat) (hb : b < 256) :
    ((b ^^^ k) % 256 ^^^ k) % 256 = b := by
  have h256 : (256 : Nat) = 2 ^ 8 := by norm_num
  rw [h256]
  apply Nat.eq_of_testBit_eq
  intro i
  by_cases hi : i < 8
  · simp only [Nat.testBit_mod_two_pow, Nat.testBit_xor, hi, decide_True, Bool.true_and]
    cases b.testBit i <;> cases k.testBit i <;> rfl
  · simp only [Nat.testBit_mod_two_pow, hi, decide_False, Bool.false_and]
    have hbp : b < 2 ^ i := by
      calc b < 2 ^ 8 := h256 ▸ hb
        _ ≤ 2 ^ i := Nat.pow_le_pow_right (by norm_num) (by omega)
    exact (Nat.testBit_lt_two_pow hbp).symm

theorem b64val_b64char : ∀ n, n < 64 → b64val (b64char n) = some n := by decide

theorem b64char_ne_eq : ∀ n, n < 64 → b64char n ≠ '=' := by decide

theorem b64_roundtrip : ∀ bs : List Nat, (∀ b ∈ bs, b < 256) →
    b64decodeChars (b64encodeChars bs) = some bs
  | [], _ => rfl
  | [a], h => by
      have ha : a < 256 := h a (by simp)
      simp only [b64encodeChars, b64decodeChars,
        b64val_b64char (a / 4) (by omega), b64val_b64char (a % 4 * 16) (by omega)]
      simp only [reduceIte, and_self, if_true, Option.some.injEq, List.cons.injEq,
        and_true]
      omega
  | [a, b], h => by
      have ha : a < 256 := h a (by simp)
      have hb : b < 256 := h b (by simp)
      have hne : b64char (b % 16 * 4) ≠ '=' := b64char_ne_eq _ (by omega)
      simp only [b64encodeChars, b64decodeChars,
        b64val_b64char (a / 4) (by omega), b64val_b64char (a % 4 * 16 + b / 16) (by omega),
        b64val_b64char (b % 16 * 4) (by omega), hne]
      simp only [if_false, reduceIte, Option.some.injEq, List.cons.injEq, and_true]
      constructor <;> omega
  | a :: b :: c :: rest, h => by
      have ha : a < 256 := h a (by simp)
      have hb : b < 256 := h b (by simp)
      have hc : c < 256 := h c (by simp)
      have hrest : ∀ x ∈ rest, x < 256 := fun x hx => h x (by simp [hx])
      have ih := b64_roundtrip rest hrest
      have hne3 : b64char (b % 16 * 4 + c / 64) ≠ '=' := b64char_ne_eq _ (by omega)
      have hne4 : b64char (c % 64) ≠ '=' := b64char_ne_eq _ (by omega)
      simp only [b64encodeChars, b64decodeChars,
        b64val_b64char (a / 4) (by omega), b64val_b64char (a % 4 * 16 + b / 16) (by omega),
        b64val_b64char (b % 16 * 4 + c / 64) (by omega), b64val_b64char (c % 64) (by omega),
        hne3, hne4]
      simp only [if_false, ih, Option.some.injEq, List.cons.injEq]
      refine ⟨by omega, by omega, by omega, trivial⟩

theorem b64decode_encode (bs : List Nat) (h : ∀ b ∈ bs, b < 256) :
    b64decode (b64encode bs) = some bs :=
  b64_roundtrip bs h

theorem xorBytesAux_eq_spec (key : List Nat) :
    ∀ (bs : List Nat) (i : Nat),
      (∀ j, j < bs.length → (i + j) % 13 < key.length) →
      xorBytesAux key i bs = some (xorSpecFrom key i bs)
  | [], _, _ => rfl
  | b :: bs, i, h => by
      have h0 : i % 13 < key.length := by
        have := h 0 (by simp)
        omega
      have hrec := xorBytesAux_eq_spec key bs (i + 1) (fun j hj => by
        have := h (j + 1) (by simp; omega)
        omega)
      simp only [xorBytesAux, xorSpecFrom, List.getElem?_eq_getElem h0, hrec,
        Option.map_some', Option.getD_some]

theorem xorSpecFrom_length (key : List Nat) :
    ∀ (bs : List Nat) (i : Nat), (xorSpecFrom key i bs).length = bs.length
  | [], _ => rfl
  | _ :: bs, i => by
      simp only [xorSpecFrom, List.length_cons, xorSpecFrom_length key bs (i + 1)]

theorem xorSpecFrom_lt256 (key : List Nat) :
    ∀ (bs : List Nat) (i : Nat), ∀ y ∈ xorSpecFrom key i bs, y < 256
  | [], _, y, hy => by simp [xorSpecFrom] at hy
  | b :: bs, i, y, hy => by
      simp only [xorSpecFrom, List.mem_cons] at hy
      rcases hy with hy | hy
      · subst hy
        exact Nat.mod_lt _ (by norm_num)
      · exact xorSpecFrom_lt256 key bs (i + 1) y hy

theorem xorSpecFrom_invol (key : List Nat) :
    ∀ (bs : List Nat) (i : Nat), (∀ b ∈ bs, b < 256) →
      xorSpecFrom key i (xorSpecFrom key i bs) = bs
  | [], _, _ => rfl
  | b :: bs, i, h => by
      have hb : b < 256 := h b (by simp)
      simp only [xorSpecFrom, List.cons.injEq]
      exact ⟨xor_mod256_invol b _ hb,
        xorSpecFrom_invol key bs (i + 1) (fun x hx => h x (by simp [hx]))⟩

theorem cover_iff (n m : Nat) : (∀ j, j < n → j % 13 < m) ↔ min n 13 ≤ m := by
  constructor
  · intro h
    by_cases hn : n = 0
    · omega
    · have := h (min n 13 - 1) (by omega)
      omega
  · intro h j hj
    omega

theorem xorBytes_defined (bs key : List Nat) (h : min bs.length 13 ≤ key.length) :
    xorBytes bs key = some (xorSpecFrom key 0 bs) := by
  apply xorBytesAux_eq_spec
  intro j hj
  have := (cover_iff bs.length key.length).mpr h j hj
  omega

theorem xorBytesAux_none (key : List Nat) :
    ∀ (bs : List Nat) (i : Nat),
      (∃ j, j < bs.length ∧ ¬ (i + j) % 13 < key.length) →
      xorBytesAux key i bs = none
  | [], _, h => by
      rcases h with ⟨j, hj, _⟩
      simp at hj
  | b :: bs, i, h => by
      rcases h with ⟨j, hj, hge⟩
      by_cases h0 : i % 13 < key.length
      · have hj0 : j ≠ 0 := by
          intro he
          subst he
          omega
        have hrec := xorBytesAux_none key bs (i + 1) ⟨j - 1, by simp at hj; omega, by omega⟩
        simp only [xorBytesAux, List.getElem?_eq_getElem h0, hrec, Option.map_none']
      · have : key[i % 13]? = none := by
          rw [List.getElem?_eq_none_iff]
          omega
        simp only [xorBytesAux, this]

theorem xorSpecFrom_eq_range (key : List Nat) :
    ∀ (bs : List Nat) (i : Nat),
      xorSpecFrom key i bs =
        (List.range bs.length).map
          (fun j => (bs[j]?.getD 0 ^^^ key[(i + j) % 13]?.getD 0) % 256)
  | [], _ => rfl
  | b :: bs, i => by
      rw [xorSpecFrom, xorSpecFrom_eq_range key bs (i + 1)]
      simp only [List.length_cons, List.range_succ_eq_map, List.map_cons, List.map_map,
        List.cons.injEq]
      refine ⟨by simp, ?_⟩
      apply List.map_congr_left
      intro j _
      have h1 : (b :: bs)[(Nat.succ j)]? = bs[j]? := by
        simp
      have h2 : i + Nat.succ j = i + 1 + j := by omega
      simp only [Function.comp_apply, h1, h2]

theorem xorSpecFrom_zero_eq_spec (key bs : List Nat) :
    xorSpecFrom key 0 bs = xorWithCyclicKeySpec bs key := by
  rw [xorSpecFrom_eq_range, xorWithCyclicKeySpec]
  apply List.map_congr_left
  intro j _
  simp

theorem keyCodes_length (s : String) : (keyCodes s).length = s.length := by
  rw [keyCodes, List.length_map]
  rfl

theorem xorBytesAux_take13 (key : List Nat) :
    ∀ (bs : List Nat) (i : Nat),
      xorBytesAux (key.take 13) i bs = xorBytesAux key i bs
  | [], _ => rfl
  | b :: bs, i => by
      have h : (key.take 13)[i % 13]? = key[i % 13]? := by
        rw [List.getElem?_take, if_pos (Nat.mod_lt _ (by norm_num))]
      simp only [xorBytesAux, h, xorBytesAux_take13 key bs (i + 1)]

/-- C5 (amended): _rumObfuscate equals the base64 encoding of the byte
sequence obtained by XOR-ing byte i of the UTF-8 encoding of the text with the
character code of the key at index i mod 13, whenever the key has at least
min(13, byte length of the text) characters; the call fails (throws) exactly
when the key is shorter than that bound, so a key shorter than 13 characters
is safe only for texts no longer than the key; for every key only the first 13
characters influence the output. -/
theorem rumObfuscate_spec (text key : String) :
    (min (utf8Bytes text).length 13 ≤ key.length →
      _rumObfuscate text key =
        some (b64encode (xorWithCyclicKeySpec (utf8Bytes text) (keyCodes key)))) ∧
    (_rumObfuscate text key = none ↔ key.length < min (utf8Bytes text).length 13) ∧
    _rumObfuscate text key = _rumObfuscate text (String.mk (key.data.take 13)) := by
  have hklen : (keyCodes key).length = key.length := keyCodes_length key
  refine ⟨?_, ⟨?_, ?_⟩, ?_⟩
  · intro hcov
    rw [_rumObfuscate, xorBytes_defined _ _ (by omega), Option.map_some',
      xorSpecFrom_zero_eq_spec]
  · intro hnone
    by_contra hlt
    rw [_rumObfuscate, xorBytes_defined _ _ (by omega), Option.map_some'] at hnone
    exact Option.some_ne_none _ hnone
  · intro hlt
    rw [_rumObfuscate, xorBytes, xorBytesAux_none, Option.map_none']
    have hne : (utf8Bytes text).length ≠ 0 := by omega
    refine ⟨min (utf8Bytes text).length 13 - 1, by omega, by omega⟩
  · rw [_rumObfuscate, _rumObfuscate, xorBytes, xorBytes]
    have hk2 : keyCodes (String.mk (key.data.take 13)) = (keyCodes key).take 13 := by
      rw [keyCodes, keyCodes, List.map_take]
    rw [hk2, xorBytesAux_take13]

/-- C5 counterexample: the key has fewer than 13 characters, yet _rumObfuscate
does not yield a defined byte for every position; on the five byte text it
throws (modelled as none) because index 3 mod 13 is outside the key. -/
theorem rumObfuscate_short_key_cex :
    "key".length < 13 ∧ _rumObfuscate "hello" "key" = none := by
  constructor
  · decide
  · rfl

theorem rumObfuscate_spec_witness :
    _rumObfuscate "Custom/Foo" "0123456789ABC" =
      some (b64encode
        (xorWithCyclicKeySpec (utf8Bytes "Custom/Foo") (keyCodes "0123456789ABC"))) :=
  (rumObfuscate_spec "Custom/Foo" "0123456789ABC").1 (by decide)

/-- C2 (amended): for every text and every key of 13 or fewer characters whose
length is at least min(13, UTF-8 byte length of the text), base64-decoding the
obfuscate output and XOR-ing it again with the same cyclic key reproduces the
UTF-8 encoding of the original text exactly. -/
theorem obfuscate_roundtrip (text key : String) (hk : key.length ≤ 13)
    (hcov : min (utf8Bytes text).length 13 ≤ key.length) :
    ∃ out, _rumObfuscate text key = some out ∧
      (b64decode out).bind (fun bs => xorBytes bs (keyCodes key)) =
        some (utf8Bytes text) := by
  have hklen : (keyCodes key).length = key.length := keyCodes_length key
  have hx := xorBytes_defined (utf8Bytes text) (keyCodes key) (by omega)
  refine ⟨b64encode (xorSpecFrom (keyCodes key) 0 (utf8Bytes text)), ?_, ?_⟩
  · rw [_rumObfuscate, hx, Option.map_some']
  · rw [b64decode_encode _ (xorSpecFrom_lt256 _ _ _), Option.some_bind,
      xorBytes_defined _ _ (by rw [xorSpecFrom_length]; omega),
      xorSpecFrom_invol _ _ _ (utf8Bytes_lt256 text)]

/-- C2 counterexample: a key of 13 or fewer characters for which the round
trip fails, because obfuscate itself throws on a text longer than the key. -/
theorem obfuscate_roundtrip_cex :
    "ab".length ≤ 13 ∧ _rumObfuscate "abc" "ab" = none := by
  constructor
  · decide
  · rfl

theorem obfuscate_roundtrip_witness :
    ∃ out, _rumObfuscate "Custom/Foo" "0123456789ABC" = some out ∧
      (b64decode out).bind (fun bs => xorBytes bs (keyCodes "0123456789ABC")) =
        some (utf8Bytes "Custom/Foo") :=
  obfuscate_roundtrip "Custom/Foo" "0123456789ABC" (by decide) (by decide)

/-- C7: with an active transaction and a non-empty name, setTransactionName
sets partialName to Custom/name and changes nothing else; with no active
transaction it changes nothing and emits exactly one warning; with an active
transaction but an empty or missing name it emits exactly one error, naming
the transaction URL when that is known, and changes nothing. -/
theorem setTransactionName_spec (st : AgentState) (name : Option String) :
    (st.transaction = none →
      setTransactionName st name =
        (st, [⟨LogLevel.warn,
          "No transaction found when setting name to \x27" ++
            formatOptS name ++ "\x27."⟩])) ∧
    (∀ tr s, st.transaction = some tr → name = some s → s ≠ "" →
      setTransactionName st name =
        ({ st with
            transaction := some { tr with partialName := some ("Custom/" ++ s) } },
          [])) ∧
    (∀ tr, st.transaction = some tr → truthyS name = false →
      (setTransactionName st name).1 = st ∧
      (setTransactionName st name).2 =
        [⟨LogLevel.error,
          if truthyS tr.url then
            "Must include name in setTransactionName call for URL " ++
              formatOptS tr.url ++ "."
          else "Must include name in setTransactionName call."⟩]) := by
  refine ⟨?_, ?_, ?_⟩
  · intro h
    rw [setTransactionName, h]
  · intro tr s htr hn hs
    subst hn
    rw [setTransactionName, htr]
    have ht : truthyS (some s) = true := by
      simp [truthyS, hs]
    rw [ht]
    rfl
  · intro tr htr hn
    by_cases hu : truthyS tr.url
    · simp [setTransactionName, htr, hn, hu]
    · simp [setTransactionName, htr, hn, hu]

theorem setTransactionName_spec_witness :
    setTransactionName stOk (some "Bar") =
      ({ stOk with
          transaction := some { trFoo with partialName := some "Custom/Bar" } },
        []) ∧
    setTransactionName stNoTrans (some "Bar") =
      (stNoTrans, [⟨LogLevel.warn,
        "No transaction found when setting name to \x27Bar\x27."⟩]) ∧
    (setTransactionName stOk none).1 = stOk ∧
    (setTransactionName stOk none).2 =
      [⟨LogLevel.error,
        "Must include name in setTransactionName call for URL /foo."⟩] := by
  refine ⟨?_, ?_, ?_, ?_⟩
  · exact (setTransactionName_spec stOk (some "Bar")).2.1 trFoo "Bar" rfl rfl
      (by decide)
  · exact (setTransactionName_spec stNoTrans (some "Bar")).1 rfl
  · exact ((setTransactionName_spec stOk none).2.2 trFoo rfl (by decide)).1
  · exact ((setTransactionName_spec stOk none).2.2 trFoo rfl (by decide)).2

/-- C6 counterexample: with an active transaction, an empty name registers
nothing instead of naming the transaction, and an empty (not merely omitted)
action falls back to the transaction verb, so the claimed partialName
Controller/name/action is not produced at either input. -/
theorem setControllerName_cex :
    ((setControllerName stOk (some "") (some "A")).1.transaction.bind
        Transaction.partialName) ≠ some "Controller//A" ∧
    ((setControllerName stOk (some "x") (some "")).1.transaction.bind
        Transaction.partialName) = some "Controller/x/POST" := by
  constructor
  · decide
  · decide

/-- C6 (amended): with an active transaction and a non-empty name,
setControllerName sets partialName to Controller/name/action, where a falsy
action (omitted or empty) falls back to the transaction verb, and to GET when
the verb is falsy as well; with an empty or missing name it emits one error
and mutates nothing. -/
theorem setControllerName_amended (st : AgentState) (name action : Option String) :
    (∀ tr s, st.transaction = some tr → name = some s → s ≠ "" →
      setControllerName st name action =
        ({ st with
            transaction := some { tr with
              partialName := some ("Controller/" ++ s ++ "/" ++
                (if truthyS action then formatOptS action
                 else if truthyS tr.verb then formatOptS tr.verb else "GET")) } },
          [])) ∧
    (∀ tr, st.transaction = some tr → truthyS name = false →
      (setControllerName st name action).1 = st ∧
      (setControllerName st name action).2 =
        [⟨LogLevel.error,
          if truthyS tr.url then
            "Must include name in setControllerName call for URL " ++
              formatOptS tr.url ++ "."
          else "Must include name in setControllerName call."⟩]) := by
  constructor
  · intro tr s htr hn hs
    subst hn
    rw [setControllerName, htr]
    have ht : truthyS (some s) = true := by
      simp [truthyS, hs]
    rw [ht]
    rfl
  · intro tr htr hn
    by_cases hu : truthyS tr.url
    · simp [setControllerName, htr, hn, hu]
    · simp [setControllerName, htr, hn, hu]

theorem setControllerName_amended_witness :
    setControllerName stOk (some "Dash") none =
      ({ stOk with
          transaction := some { trFoo with
            partialName := some "Controller/Dash/POST" } },
        []) :=
  (setControllerName_amended stOk (some "Dash") none).1 trFoo "Dash" rfl rfl
    (by decide)

/-- C10: setIgnoreTransaction stores its argument into forceIgnore unchanged,
for every value including undefined, overwriting the previous value and
changing nothing else. -/
theorem setIgnoreTransaction_spec (st : AgentState) (tr : Transaction) (v : JVal)
    (h : st.transaction = some tr) :
    setIgnoreTransaction st v =
      ({ st with transaction := some { tr with forceIgnore := v } }, []) := by
  rw [setIgnoreTransaction, h]

theorem setIgnoreTransaction_spec_witness :
    setIgnoreTransaction stNoName JVal.undef =
      ({ stNoName with
          transaction := some { trBare with forceIgnore := JVal.undef } },
        []) :=
  setIgnoreTransaction_spec stNoName trBare JVal.undef rfl

/-- C9: every call of setTransactionName or setControllerName either emits
exactly one log record and leaves the state unchanged, or writes exactly the
partialName field of the transaction and emits no log record; never both. -/
theorem naming_ops_frame (st : AgentState) (name action : Option String) :
    nameOpFrame st (setTransactionName st name) ∧
    nameOpFrame st (setControllerName st name action) := by
  constructor
  · rcases htr : st.transaction with _ | tr
    · left
      simp [setTransactionName, htr]
    · by_cases hn : truthyS name
      · right
        simp only [setTransactionName, htr, hn]
        refine ⟨by simp, tr, NAMES_CUSTOM ++ "/" ++ formatOptS name, rfl, by simp⟩
      · left
        rw [Bool.not_eq_true] at hn
        by_cases hu : truthyS tr.url <;> simp [setTransactionName, htr, hn, hu]
  · rcases htr : st.transaction with _ | tr
    · left
      simp [setControllerName, htr]
    · by_cases hn : truthyS name
      · right
        simp only [setControllerName, htr, hn]
        refine ⟨by simp, tr,
          NAMES_CONTROLLER ++ "/" ++ formatOptS name ++ "/" ++
            (if truthyS action then formatOptS action
             else if truthyS tr.verb then formatOptS tr.verb else "GET"),
          rfl, by simp⟩
      · left
        rw [Bool.not_eq_true] at hn
        by_cases hu : truthyS tr.url <;> simp [setControllerName, htr, hn, hu]

theorem naming_ops_frame_witness :
    nameOpFrame stOk (setTransactionName stOk (some "Bar")) ∧
    nameOpFrame stOk (setControllerName stOk (some "Bar") none) :=
  naming_ops_frame stOk (some "Bar") none

/-- C3: addNamingRule with an empty or missing name emits one error and
registers nothing; with a non-empty name it appends, for every pattern
including the empty one, a rule mapping the pattern to slash followed by the
name; addIgnoringRule with an empty pattern emits one error and registers
nothing, otherwise it appends a rule mapping the pattern to the null
replacement. -/
theorem add_rules_spec (st : AgentState) (pattern : String) (name : Option String) :
    (truthyS name = false →
      addNamingRule st pattern name =
        (st, [⟨LogLevel.error, "Simple naming rules require a replacement name."⟩])) ∧
    (∀ s, name = some s → s ≠ "" →
      addNamingRule st pattern name =
        ({ st with rules := st.rules ++ [(pattern, some ("/" ++ s))] }, [])) ∧
    (addIgnoringRule st "" =
      (st, [⟨LogLevel.error, "Must include a URL pattern to ignore."⟩])) ∧
    (pattern ≠ "" →
      addIgnoringRule st pattern =
        ({ st with rules := st.rules ++ [(pattern, none)] }, [])) := by
  refine ⟨?_, ?_, ?_, ?_⟩
  · intro h
    simp [addNamingRule, h]
  · intro s hn hs
    subst hn
    have ht : truthyS (some s) = true := by
      simp [truthyS, hs]
    simp [addNamingRule, ht]
    rfl
  · simp [addIgnoringRule]
  · intro h
    simp [addIgnoringRule, h]

theorem add_rules_spec_witness :
    addNamingRule stOk "" (some "x") =
      ({ stOk with rules := [("", some "/x")] }, []) ∧
    addNamingRule stOk "^/a" (some "B") =
      ({ stOk with rules := [("^/a", some "/B")] }, []) ∧
    addNamingRule stOk "^/a" none =
      (stOk, [⟨LogLevel.error, "Simple naming rules require a replacement name."⟩]) ∧
    addIgnoringRule stOk "^/socket" =
      ({ stOk with rules := [("^/socket", none)] }, []) :=
  ⟨(add_rules_spec stOk "" (some "x")).2.1 "x" rfl (by decide),
   (add_rules_spec stOk "^/a" (some "B")).2.1 "B" rfl (by decide),
   (add_rules_spec stOk "^/a" none).1 (by decide),
   (add_rules_spec stOk "^/socket" none).2.2.2 (by decide)⟩

/-- C1: getBrowserTimingHeader evaluates its six short circuiting failure
checks in the source order: missing browser_monitoring section gives code 2,
falsy browser_monitoring.enable gives code 0, missing transaction gives code
1, falsy partialName gives code 3, falsy application_id gives code 4, falsy
browser_key gives code 5; each failure returns the HTML comment of its code
and emits exactly the one fixed warning of the RUM_ISSUES table, and the
first failing check determines the result. -/
theorem gbth_failure_chain (st : AgentState) :
    (st.config.browser_monitoring = none →
      getBrowserTimingHeader st = (some (gracefailOut 2), [gracewarn 2])) ∧
    (∀ bm, st.config.browser_monitoring = some bm →
      bm.enable.truthy = false →
      getBrowserTimingHeader st = (some (gracefailOut 0), [gracewarn 0])) ∧
    (∀ bm, st.config.browser_monitoring = some bm →
      bm.enable.truthy = true → st.transaction = none →
      getBrowserTimingHeader st = (some (gracefailOut 1), [gracewarn 1])) ∧
    (∀ bm tr, st.config.browser_monitoring = some bm →
      bm.enable.truthy = true → st.transaction = some tr →
      truthyS tr.partialName = false →
      getBrowserTimingHeader st = (some (gracefailOut 3), [gracewarn 3])) ∧
    (∀ bm tr, st.config.browser_monitoring = some bm →
      bm.enable.truthy = true → st.transaction = some tr →
      truthyS tr.partialName = true →
      st.config.application_id.truthy = false →
      getBrowserTimingHeader st = (some (gracefailOut 4), [gracewarn 4])) ∧
    (∀ bm tr, st.config.browser_monitoring = some bm →
      bm.enable.truthy = true → st.transaction = some tr →
      truthyS tr.partialName = true →
      st.config.application_id.truthy = true →
      bm.browser_key.truthy = false →
      getBrowserTimingHeader st = (some (gracefailOut 5), [gracewarn 5])) := by
  refine ⟨?_, ?_, ?_, ?_, ?_, ?_⟩
  · intro h
    simp [getBrowserTimingHeader, h]
  · intro bm hbm hen
    simp [getBrowserTimingHeader, hbm, hen]
  · intro bm hbm hen htr
    simp [getBrowserTimingHeader, hbm, hen, htr]
  · intro bm tr hbm hen htr hname
    simp [getBrowserTimingHeader, hbm, hen, htr, hname]
  · intro bm tr hbm hen htr hname happ
    simp [getBrowserTimingHeader, hbm, hen, htr, hname, happ]
  · intro bm tr hbm hen htr hname happ hkey
    simp [getBrowserTimingHeader, hbm, hen, htr, hname, happ, hkey]

theorem gbth_failure_chain_witness :
    getBrowserTimingHeader stNoBm =
      (some "<!-- NREUM: (2) -->",
       [⟨LogLevel.warn,
         "NREUM: conf.browser_monitoring missing, something is probably wrong"⟩]) ∧
    getBrowserTimingHeader stDisabled =
      (some "<!-- NREUM: (0) -->",
       [⟨LogLevel.warn,
         "NREUM: no browser monitoring headers generated; disabled"⟩]) ∧
    getBrowserTimingHeader stNoTrans =
      (some "<!-- NREUM: (1) -->",
       [⟨LogLevel.warn,
         "NREUM: transaction missing while generating browser monitoring headers"⟩]) ∧
    getBrowserTimingHeader stNoName =
      (some "<!-- NREUM: (3) -->",
       [⟨LogLevel.warn,
         "NREUM: browser_monitoring headers need a transaction name"⟩]) ∧
    getBrowserTimingHeader stNoApp =
      (some "<!-- NREUM: (4) -->",
       [⟨LogLevel.warn,
         "NREUM: browser_monitoring requires valid application_id"⟩]) ∧
    getBrowserTimingHeader stNoKey =
      (some "<!-- NREUM: (5) -->",
       [⟨LogLevel.warn,
         "NREUM: browser_monitoring requires valid browser_key"⟩]) := by
  refine ⟨?_, ?_, ?_, ?_, ?_, ?_⟩
  · rw [(gbth_failure_chain stNoBm).1 rfl]
    rfl
  · rw [(gbth_failure_chain stDisabled).2.1 _ rfl rfl]
    rfl
  · rw [(gbth_failure_chain stNoTrans).2.2.1 _ rfl rfl rfl]
    rfl
  · rw [(gbth_failure_chain stNoName).2.2.2.1 _ trBare rfl rfl rfl rfl]
    rfl
  · rw [(gbth_failure_chain stNoApp).2.2.2.2.1 _ trFoo rfl rfl rfl rfl rfl]
    rfl
  · rw [(gbth_failure_chain stNoKey).2.2.2.2.2 _ trFoo rfl rfl rfl rfl rfl rfl]
    rfl

/-- C4: on this input every one of the six graceful checks passes, and yet
the call does not return any string: the obfuscation loop reads the license
key at index 2 mod 13, past the end of the two character key, which in the
JavaScript original throws a TypeError out of getBrowserTimingHeader
(modelled here by the none result), with no log record emitted. -/
theorem gbth_throws_on_short_license_key :
    getBrowserTimingHeader stShortKey = (none, []) := by
  rfl

/-- C8 counterexample: on stShortKey all six checks pass (the section is
present, enable is truthy, a transaction with a truthy partialName is active,
application_id and browser_key are truthy), yet getBrowserTimingHeader does
not return the claimed script string, or any string: the call throws. -/
theorem gbth_success_cex :
    stShortKey.config.browser_monitoring = some bmOn ∧
    bmOn.enable.truthy = true ∧
    (∃ tr, stShortKey.transaction = some tr ∧ truthyS tr.partialName = true) ∧
    stShortKey.config.application_id.truthy = true ∧
    bmOn.browser_key.truthy = true ∧
    (getBrowserTimingHeader stShortKey).1 = none := by
  exact ⟨rfl, rfl, ⟨_, rfl, rfl⟩, rfl, rfl, rfl⟩

/-- C8 (amended): when all six checks pass and the configured license_key is
a string with at least min(13, UTF-8 byte length of the transaction name)
characters (otherwise the call throws instead of returning), the result is
exactly the RUM_STUB script markup around the JSON serialization of the rum
hash, whose field list always carries the placeholders agentToken null and
ttGuid empty string, and whose transactionName is the obfuscated name; the
debug flag only selects the 2 space indentation of the same field list. -/
theorem gbth_success_output (st : AgentState) (bm : BrowserMonitoringConfig)
    (tr : Transaction) (k name : String)
    (hbm : st.config.browser_monitoring = some bm)
    (hen : bm.enable.truthy = true)
    (htr : st.transaction = some tr)
    (hname : tr.partialName = some name)
    (hne : name ≠ "")
    (happ : st.config.application_id.truthy = true)
    (hkey : bm.browser_key.truthy = true)
    (hlk : st.config.license_key = some k)
    (hcov : min (utf8Bytes name).length 13 ≤ k.length) :
    getBrowserTimingHeader st =
      (some (RUM_STUB
        (jsonStringifyObj
          (rumHashFields bm st.config.application_id tr
            (b64encode (xorWithCyclicKeySpec (utf8Bytes name) (keyCodes k))))
          (if bm.debug.truthy then 2 else 0))
        bm.js_agent_loader.formatS),
       [⟨LogLevel.trace, "generating RUM header"⟩]) := by
  have hobf : _rumObfuscate name k =
      some (b64encode (xorWithCyclicKeySpec (utf8Bytes name) (keyCodes k))) := by
    rw [_rumObfuscate, xorBytes_defined _ _ (by rw [keyCodes_length]; omega),
      Option.map_some', xorSpecFrom_zero_eq_spec]
  have hnt : truthyS (some name) = true := by
    simp [truthyS, hne]
  simp only [getBrowserTimingHeader, hbm, hen, htr, hname, hnt, happ, hkey, hlk]
  simp [formatOptS, hobf]

theorem gbth_success_output_witness :
    getBrowserTimingHeader stOk =
      (some (RUM_STUB
        (jsonStringifyObj
          (rumHashFields bmOn stOk.config.application_id trFoo
            (b64encode (xorWithCyclicKeySpec (utf8Bytes "Custom/Foo")
              (keyCodes "0123456789ABC"))))
          (if bmOn.debug.truthy then 2 else 0))
        bmOn.js_agent_loader.formatS),
       [⟨LogLevel.trace, "generating RUM header"⟩]) :=
  gbth_success_output stOk bmOn trFoo "0123456789ABC" "Custom/Foo"
    rfl rfl rfl rfl (by decide) rfl rfl rfl (by decide)
